import Mathlib

/-!
Shallow embedding of the tubetotext.ai backend
(`app/api/v1/endpoints/youtube.py`) and proofs about its observable
contract: URL validation, video-identifier extraction, transcript
fetching with language fallback, and the `/convert` and
`/supported-formats` operations.
-/

namespace TubeToText

/-! ### Video-identifier extraction (`extract_video_id`)

The source compiles two regular expressions:
  `(?:youtube\.com\/watch\?v=|youtu\.be\/|youtube\.com\/embed\/)([^&\n?#]+)`
  `youtube\.com\/v\/([^&\n?#]+)`
and returns the captured group of the first one that matches anywhere in
the URL (`re.search`).  We embed this regex fragment directly: each
alternative is a literal character sequence followed by a non-empty
greedy capture of characters outside `&`, newline, `?`, `#`; `re.search`
scans positions left to right and, at a position, tries the alternatives
in order. -/

/-- Characters that terminate the captured identifier: the class `[^&\n?#]`. -/
def excludedChar (c : Char) : Bool :=
  c == '&' || c == '\n' || c == '?' || c == '#'

/-- Greedy capture of the class `[^&\n?#]+` (possibly empty here; emptiness
is rejected at the match site). -/
def captureFrom (s : List Char) : List Char :=
  s.takeWhile (fun c => !excludedChar c)

/-- Test whether `p` is an initial segment of `s`. -/
def startsWithChars : List Char → List Char → Bool
  | [], _ => true
  | _ :: _, [] => false
  | p :: ps, c :: cs => p == c && startsWithChars ps cs

/-- Try to match one of the literal alternatives `pats` at the current
position, in order; on a match the capture `[^&\n?#]+` must be non-empty. -/
def tryAt (pats : List (List Char)) (s : List Char) : Option (List Char) :=
  pats.findSome? fun p =>
    if startsWithChars p s then
      let cap := captureFrom (s.drop p.length)
      if cap.isEmpty then none else some cap
    else none

/-- Scan positions left to right (the semantics of `re.search`) and return
the first successful capture. -/
def reSearch (pats : List (List Char)) : List Char → Option (List Char)
  | [] => tryAt pats []
  | c :: rest =>
    match tryAt pats (c :: rest) with
    | some cap => some cap
    | none => reSearch pats rest

/-- Literal alternative `youtube\.com\/watch\?v=` of the first pattern. -/
def watchAlt : List Char := "youtube.com/watch?v=".data

/-- Literal alternative `youtu\.be\/` of the first pattern. -/
def beAlt : List Char := "youtu.be/".data

/-- Literal alternative `youtube\.com\/embed\/` of the first pattern. -/
def embedAlt : List Char := "youtube.com/embed/".data

/-- Literal body `youtube\.com\/v\/` of the second pattern. -/
def vAlt : List Char := "youtube.com/v/".data

/-- Alternatives of the first pattern, in the order they appear in the
alternation. -/
def pattern1Alts : List (List Char) := [watchAlt, beAlt, embedAlt]

/-- Alternatives of the second pattern. -/
def pattern2Alts : List (List Char) := [vAlt]

/-- Embedding of `extract_video_id`: try the first regex over the whole
URL, then the second; return the first match's captured group, `none`
when neither matches. -/
def extract_video_id (url : String) : Option String :=
  match reSearch pattern1Alts url.data with
  | some cap => some ⟨cap⟩
  | none => (reSearch pattern2Alts url.data).map fun cap => (⟨cap⟩ : String)

/-- All alternatives in `pats` mismatch the position whose remaining
concrete characters are `a`, whatever follows `a`: each alternative,
truncated to `a`'s length, fails to match `a`. -/
def mismatchAt (pats : List (List Char)) (a : List Char) : Bool :=
  pats.all fun p => !startsWithChars (p.take a.length) a

/-- Every position strictly inside the concrete segment fails to match
any alternative, whatever follows the segment. -/
def skipsAll (pats : List (List Char)) : List Char → Bool
  | [] => true
  | c :: rest => mismatchAt pats (c :: rest) && skipsAll pats rest

/-! ### URL parsing (`urllib.parse.urlparse`, network-location part)

The validator only consults `parsed_url.netloc`.  `urlsplit` strips a
leading `scheme:` (letters/digits/`+`/`-`/`.`, first character a letter)
and, when the remainder begins with `//`, takes the network location up
to the first `/`, `?` or `#`; otherwise the network location is empty. -/

/-- Characters allowed in a URL scheme. -/
def schemeChar (c : Char) : Bool :=
  c.isAlphanum || c == '+' || c == '-' || c == '.'

/-- Drop a valid `scheme:` head from the character list, if present. -/
def stripScheme (s : List Char) : List Char :=
  match s.findIdx? (fun c => c == ':') with
  | none => s
  | some i =>
    match s with
    | [] => s
    | c₀ :: _ =>
      if 0 < i && c₀.isAlpha && (s.take i).all schemeChar then s.drop (i + 1) else s

/-- Network location of a URL, as a character list. -/
def netlocChars (s : List Char) : List Char :=
  match stripScheme s with
  | '/' :: '/' :: rest => rest.takeWhile (fun c => !(c == '/' || c == '?' || c == '#'))
  | _ => []

/-- Embedding of `urlparse(v).netloc`. -/
def netloc (url : String) : String :=
  ⟨netlocChars url.data⟩

/-! ### URL validation (`YouTubeURLRequest.validate_youtube_url`) -/

/-- Embedding of `str.lower()` for the ASCII strings this API compares
(hostnames): lower each character. -/
def lower (s : String) : String :=
  ⟨s.data.map Char.toLower⟩

/-- The fixed accepted-hostname list (`valid_domains` in the source). -/
def valid_domains : List String :=
  ["youtube.com", "www.youtube.com", "youtu.be", "www.youtu.be", "m.youtube.com"]

/-- Embedding of the `url` field validator: reject the empty string,
reject when the lower-cased network location is not an accepted hostname,
reject when no video identifier can be extracted; otherwise return the
URL unchanged.  The raised `ValueError` messages become `Except.error`
payloads. -/
def validate_youtube_url (v : String) : Except String String :=
  if v = "" then .error "URL cannot be empty"
  else if lower (netloc v) ∉ valid_domains then
    .error "URL must be from YouTube domain (youtube.com or youtu.be)"
  else
    match extract_video_id v with
    | none => .error "Invalid YouTube URL format"
    | some _ => .ok v

/-! ### Transcript fetching (`get_video_transcript`)

The external provider (`YouTubeTranscriptApi`) is modelled by the outcome
of `list_transcripts`: either a raised error or an ordered list of
transcript tracks, where each track carries its language code and the
outcome of its own `fetch()` (raised error or a list of timed-segment
texts).  `TextFormatter.format_transcript` joins segment texts with
newlines. -/

deriving instance DecidableEq for Except

/-- One transcript track as enumerated by the provider. -/
structure TranscriptTrack where
  language_code : String
  fetchResult : Except String (List String)
deriving DecidableEq, Repr

/-- Outcome of `YouTubeTranscriptApi.list_transcripts(video_id)`: a raised
error, or the provider's ordered enumeration of tracks. -/
inductive ListTranscriptsOutcome where
  | failure (err : String)
  | tracks (ts : List TranscriptTrack)
deriving DecidableEq, Repr

/-- The dict returned by `get_video_transcript`. -/
structure TranscriptResult where
  transcript : Option String
  language : Option String
  available_languages : List String
  success : Bool
  error : Option String
deriving DecidableEq, Repr

/-- Embedding of `TextFormatter.format_transcript`: join the segment
texts with newlines. -/
def format_transcript (segments : List String) : String :=
  String.intercalate "\n" segments

/-- Detail string of the exception raised by `next(iter(transcript_list))`
on an empty enumeration: `str(StopIteration())` is the empty string. -/
def stopIterationDetail : String := ""

/-- Embedding of `transcript_list.find_transcript([language])`: the first
track whose language code equals the requested one, if any. -/
def find_transcript (ts : List TranscriptTrack) (language : String) : Option TranscriptTrack :=
  ts.find? fun t => t.language_code == language

/-- The track/effective-language selection of lines 94–99 of the source:
exact match keeps the requested language; otherwise fall back to the first
track of the enumeration and report its language code; an empty
enumeration makes the fallback raise (modelled as `none`). -/
def select_transcript (ts : List TranscriptTrack) (language : String) :
    Option (TranscriptTrack × String) :=
  match find_transcript ts language with
  | some t => some (t, language)
  | none =>
    match ts with
    | [] => none
    | t :: _ => some (t, t.language_code)

/-- Embedding of `get_video_transcript`: list tracks, record the available
language codes in enumeration order, select a track with language
fallback, fetch and format it; every failure is converted to the
structured failure dict (the function is total — it never raises). -/
def get_video_transcript (listing : ListTranscriptsOutcome) (language : String) :
    TranscriptResult :=
  match listing with
  | .failure err =>
    { transcript := none, language := none, available_languages := []
    , success := false, error := some err }
  | .tracks ts =>
    let available := ts.map fun t => t.language_code
    match select_transcript ts language with
    | none =>
      { transcript := none, language := none, available_languages := []
      , success := false, error := some stopIterationDetail }
    | some (t, lang) =>
      match t.fetchResult with
      | .error err =>
        { transcript := none, language := none, available_languages := []
        , success := false, error := some err }
      | .ok segs =>
        { transcript := some (format_transcript segs), language := some lang
        , available_languages := available, success := true, error := none }

/-! ### Video info assembly (`get_video_info`) -/

/-- The dict returned by `get_video_info`: placeholder metadata plus the
transcript fields copied from the fetcher's result. -/
structure VideoData where
  title : String
  description : String
  duration : String
  view_count : String
  upload_date : String
  channel_name : String
  transcript : Option String
  transcript_language : Option String
  available_languages : List String
  transcript_available : Bool
deriving DecidableEq, Repr

/-- Embedding of `get_video_info`. -/
def get_video_info (video_id language : String) (listing : ListTranscriptsOutcome) :
    VideoData :=
  let tr := get_video_transcript listing language
  { title := "Video " ++ video_id
  , description := "Video description would come from YouTube Data API"
  , duration := "Unknown"
  , view_count := "Unknown"
  , upload_date := "Unknown"
  , channel_name := "Unknown"
  , transcript := tr.transcript
  , transcript_language := tr.language
  , available_languages := tr.available_languages
  , transcript_available := tr.success }

/-! ### The `/convert` operation (`convert_youtube_to_text`) -/

/-- The `YouTubeVideoInfo` response model.  `processed_at` is the wall
clock at assembly time, modelled as an abstract timestamp. -/
structure YouTubeVideoInfo where
  video_id : String
  title : Option String
  description : Option String
  duration : Option String
  view_count : Option String
  upload_date : Option String
  channel_name : Option String
  transcript : Option String
  transcript_language : Option String
  available_languages : Option (List String)
  processed_at : Nat
deriving DecidableEq, Repr

/-- The `YouTubeResponse` envelope. -/
structure YouTubeResponse where
  success : Bool
  message : String
  data : Option YouTubeVideoInfo
  error : Option String
deriving DecidableEq, Repr

/-- HTTP-level outcome of a `/convert` request: a 200 body, or an
`HTTPException` with status code and detail. -/
inductive ConvertOutcome where
  | ok (resp : YouTubeResponse)
  | httpError (status : Nat) (detail : String)
deriving DecidableEq, Repr

/-- Embedding of a whole `/convert` request: request-model validation of
the URL (a raised `ValueError` is mapped to a 400 with the message, per
the handler's `except ValueError` arm), then the handler body.  The
external provider is a function from video identifier to listing outcome;
the second component records which video identifiers were sent to the
provider. -/
def convert_youtube_to_text (url language : String)
    (provider : String → ListTranscriptsOutcome) (now : Nat) :
    ConvertOutcome × List String :=
  match validate_youtube_url url with
  | .error e => (.httpError 400 e, [])
  | .ok u =>
    match extract_video_id u with
    | none => (.httpError 400 "Could not extract video ID from URL", [])
    | some video_id =>
      let video_data := get_video_info video_id language (provider video_id)
      let video_info : YouTubeVideoInfo :=
        { video_id := video_id
        , title := some video_data.title
        , description := some video_data.description
        , duration := some video_data.duration
        , view_count := some video_data.view_count
        , upload_date := some video_data.upload_date
        , channel_name := some video_data.channel_name
        , transcript := video_data.transcript
        , transcript_language := video_data.transcript_language
        , available_languages := some video_data.available_languages
        , processed_at := now }
      let success_message := "Successfully converted YouTube video to text" ++
        (if video_data.transcript_available then ""
         else " (Note: Transcript not available for this video)")
      (.ok { success := true, message := success_message
           , data := some video_info, error := none }, [video_id])

/-! ### The `/supported-formats` operation -/

/-- The payload of `GET /supported-formats`. -/
structure SupportedFormats where
  supported_formats : List String
  domains : List String
deriving DecidableEq, Repr

/-- Embedding of `get_supported_youtube_formats`: a constant payload
(the function takes no input and reads no state). -/
def get_supported_youtube_formats : SupportedFormats :=
  { supported_formats :=
      [ "https://www.youtube.com/watch?v=VIDEO_ID"
      , "https://youtube.com/watch?v=VIDEO_ID"
      , "https://youtu.be/VIDEO_ID"
      , "https://www.youtube.com/embed/VIDEO_ID"
      , "https://m.youtube.com/watch?v=VIDEO_ID" ]
  , domains :=
      [ "youtube.com"
      , "www.youtube.com"
      , "youtu.be"
      , "m.youtube.com" ] }

/-! ## Helper lemmas about the search engine -/

lemma startsWithChars_self_append (p t : List Char) : startsWithChars p (p ++ t) = true := by
  induction p with
  | nil => rfl
  | cons c cs ih => simp [startsWithChars, ih]

lemma startsWithChars_take_of_append {p a x : List Char}
    (h : startsWithChars p (a ++ x) = true) :
    startsWithChars (p.take a.length) a = true := by
  induction p generalizing a x with
  | nil => cases a <;> rfl
  | cons c cs ih =>
    cases a with
    | nil => rfl
    | cons b bs =>
      simp only [List.cons_append, startsWithChars, Bool.and_eq_true] at h
      simp only [List.length_cons, List.take_succ_cons, startsWithChars, Bool.and_eq_true]
      exact ⟨h.1, ih h.2⟩

lemma startsWithChars_append_eq_false {p a : List Char} (x : List Char)
    (h : startsWithChars (p.take a.length) a = false) :
    startsWithChars p (a ++ x) = false := by
  cases hb : startsWithChars p (a ++ x) with
  | false => rfl
  | true => rw [startsWithChars_take_of_append hb] at h; exact absurd h (by simp)

lemma startsWithChars_mem {p s : List Char} (h : startsWithChars p s = true) :
    ∀ c ∈ p, c ∈ s := by
  induction p generalizing s with
  | nil => simp
  | cons b bs ih =>
    cases s with
    | nil => simp [startsWithChars] at h
    | cons d ds =>
      simp only [startsWithChars, Bool.and_eq_true, beq_iff_eq] at h
      intro c hc
      rcases List.mem_cons.mp hc with hc | hc
      · exact hc ▸ h.1 ▸ List.mem_cons_self _ _
      · exact List.mem_cons_of_mem _ (ih h.2 c hc)

lemma tryAt_eq_none_of_mismatch {pats : List (List Char)} {s : List Char}
    (h : ∀ p ∈ pats, startsWithChars p s = false) : tryAt pats s = none := by
  unfold tryAt
  rw [List.findSome?_eq_none_iff]
  intro p hp
  simp [h p hp]

lemma tryAt_append_eq_none {pats : List (List Char)} {a : List Char} (x : List Char)
    (h : mismatchAt pats a = true) : tryAt pats (a ++ x) = none := by
  apply tryAt_eq_none_of_mismatch
  intro p hp
  have hm := List.all_eq_true.mp h p hp
  exact startsWithChars_append_eq_false x (by simpa using hm)

lemma reSearch_skips {pats : List (List Char)} (head x : List Char)
    (h : skipsAll pats head = true) :
    reSearch pats (head ++ x) = reSearch pats x := by
  induction head with
  | nil => rfl
  | cons c rest ih =>
    simp only [skipsAll, Bool.and_eq_true] at h
    have hn : tryAt pats (c :: (rest ++ x)) = none := by
      have := @tryAt_append_eq_none pats (c :: rest) x h.1
      simpa using this
    simp only [List.cons_append, reSearch, List.append_eq, hn]
    exact ih h.2

lemma tryAt_cons_self {p : List Char} (ps : List (List Char)) (t : List Char)
    (h : ¬ captureFrom t = []) :
    tryAt (p :: ps) (p ++ t) = some (captureFrom t) := by
  unfold tryAt
  simp [List.findSome?_cons, startsWithChars_self_append, List.drop_left, h]

lemma tryAt_cons_of_mismatch {p s : List Char} (ps : List (List Char))
    (h : startsWithChars p s = false) :
    tryAt (p :: ps) s = tryAt ps s := by
  unfold tryAt
  simp [List.findSome?_cons, h]

lemma reSearch_eq_some {pats : List (List Char)} {s cap : List Char}
    (hne : s ≠ []) (h : tryAt pats s = some cap) :
    reSearch pats s = some cap := by
  cases s with
  | nil => exact absurd rfl hne
  | cons c t => simp [reSearch, h]

lemma reSearch_eq_none_of_not_mem {pats : List (List Char)} (d : Char)
    (hp : ∀ p ∈ pats, d ∈ p) {s : List Char} (hs : d ∉ s) :
    reSearch pats s = none := by
  induction s with
  | nil =>
    show tryAt pats [] = none
    apply tryAt_eq_none_of_mismatch
    intro p hpp
    cases p with
    | nil => exact absurd (hp [] hpp) (by simp)
    | cons c cs => rfl
  | cons c t ih =>
    have hnt : d ∉ t := fun hm => hs (List.mem_cons_of_mem _ hm)
    have hn : tryAt pats (c :: t) = none := by
      apply tryAt_eq_none_of_mismatch
      intro p hpp
      cases hsw : startsWithChars p (c :: t) with
      | false => rfl
      | true => exact absurd (startsWithChars_mem hsw d (hp p hpp)) hs
    simp only [reSearch, hn]
    exact ih hnt

lemma captureFrom_append {id rest : List Char}
    (h2 : ∀ c ∈ id, excludedChar c = false) (h3 : captureFrom rest = []) :
    captureFrom (id ++ rest) = id := by
  unfold captureFrom at h3 ⊢
  rw [List.takeWhile_append_of_pos (fun c hc => by simp [h2 c hc]), h3, List.append_nil]

lemma append_ne_nil_left {a : List Char} (x : List Char) (h : a ≠ []) : a ++ x ≠ [] := by
  cases a with
  | nil => exact absurd rfl h
  | cons c t => simp

lemma data_mk (l : List Char) : (⟨l⟩ : String).data = l := rfl

/-! ## Helper lemmas about the embedded endpoint functions -/

lemma gvt_success_or_failure (listing : ListTranscriptsOutcome) (language : String) :
    (get_video_transcript listing language).success = true ∨
    ∃ e, get_video_transcript listing language =
      { transcript := none, language := none, available_languages := []
      , success := false, error := some e } := by
  cases listing with
  | failure err => exact Or.inr ⟨err, rfl⟩
  | tracks ts =>
    cases hsel : select_transcript ts language with
    | none => exact Or.inr ⟨stopIterationDetail, by simp [get_video_transcript, hsel]⟩
    | some pair =>
      obtain ⟨t, lang2⟩ := pair
      cases hf : t.fetchResult with
      | error err => exact Or.inr ⟨err, by simp [get_video_transcript, hsel, hf]⟩
      | ok segs => exact Or.inl (by simp [get_video_transcript, hsel, hf])

lemma validate_cases (v : String) :
    (validate_youtube_url v = .error "URL cannot be empty" ∨
     validate_youtube_url v = .error "URL must be from YouTube domain (youtube.com or youtu.be)" ∨
     (validate_youtube_url v = .error "Invalid YouTube URL format" ∧ extract_video_id v = none)) ∨
    (validate_youtube_url v = .ok v ∧ extract_video_id v ≠ none) := by
  unfold validate_youtube_url
  by_cases h1 : v = ""
  · exact Or.inl (Or.inl (by simp [h1]))
  · by_cases h2 : lower (netloc v) ∉ valid_domains
    · exact Or.inl (Or.inr (Or.inl (by simp [h1, h2])))
    · cases he : extract_video_id v with
      | none => exact Or.inl (Or.inr (Or.inr ⟨by simp [h1, h2], rfl⟩))
      | some vid => exact Or.inr ⟨by simp [h1, h2, he], by simp [he]⟩

lemma convert_validate_error (url language : String)
    (provider : String → ListTranscriptsOutcome) (now : Nat) (e : String)
    (hv : validate_youtube_url url = .error e) :
    convert_youtube_to_text url language provider now = (.httpError 400 e, []) := by
  simp [convert_youtube_to_text, hv]

/-! ## Claim theorems -/

/-- Claim C1: for every `/convert` request whose URL passes validation and
yields a video identifier, if the transcript fetch fails the endpoint
still returns a response with `success = true`, `data` present with
`transcript` and `transcript_language` absent, and the success message
annotated with the transcript-unavailable note — not a 400 or 500
error. -/
theorem convert_soft_success_without_transcript :
    ∀ (url language : String) (provider : String → ListTranscriptsOutcome) (now : Nat)
      (vid : String),
      validate_youtube_url url = .ok url →
      extract_video_id url = some vid →
      (get_video_transcript (provider vid) language).success = false →
      ∃ info : YouTubeVideoInfo,
        (convert_youtube_to_text url language provider now).1 =
          .ok { success := true
              , message := "Successfully converted YouTube video to text (Note: Transcript not available for this video)"
              , data := some info, error := none } ∧
        info.transcript = none ∧ info.transcript_language = none := by
  intro url language provider now vid hv he hf
  rcases gvt_success_or_failure (provider vid) language with hs | ⟨e, hgvt⟩
  · rw [hs] at hf; exact absurd hf (by simp)
  refine ⟨?_, ?_, ?_, ?_⟩
  case _ =>
    exact { video_id := vid
          , title := some ("Video " ++ vid)
          , description := some "Video description would come from YouTube Data API"
          , duration := some "Unknown"
          , view_count := some "Unknown"
          , upload_date := some "Unknown"
          , channel_name := some "Unknown"
          , transcript := none
          , transcript_language := none
          , available_languages := some []
          , processed_at := now }
  all_goals
    simp [convert_youtube_to_text, hv, he, get_video_info, hgvt]

/-- Witness for C1: a valid `youtu.be` URL whose provider lookup fails
entirely still produces the annotated soft-success response. -/
theorem convert_soft_success_without_transcript_witness :
    ∃ info : YouTubeVideoInfo,
      (convert_youtube_to_text "https://youtu.be/abc123" "en"
        (fun _ => .failure "TranscriptsDisabled") 0).1 =
        .ok { success := true
            , message := "Successfully converted YouTube video to text (Note: Transcript not available for this video)"
            , data := some info, error := none } ∧
      info.transcript = none ∧ info.transcript_language = none :=
  convert_soft_success_without_transcript "https://youtu.be/abc123" "en"
    (fun _ => .failure "TranscriptsDisabled") 0 "abc123"
    (by decide) (by decide) (by decide)

/-- Claim C2: the transcript fetcher never raises past its own boundary
(it is a total function of the provider outcome), and every failure —
listing failure, empty enumeration, fetch failure — yields the structured
failure result with no transcript, no effective language, an empty
available-languages list, and the error detail taken from the underlying
failure. -/
theorem get_video_transcript_failure_result :
    ∀ (language err : String) (ts : List TranscriptTrack),
      get_video_transcript (.failure err) language =
        { transcript := none, language := none, available_languages := []
        , success := false, error := some err } ∧
      get_video_transcript (.tracks []) language =
        { transcript := none, language := none, available_languages := []
        , success := false, error := some stopIterationDetail } ∧
      (∀ t lang2, select_transcript ts language = some (t, lang2) →
        ∀ err2, t.fetchResult = .error err2 →
          get_video_transcript (.tracks ts) language =
            { transcript := none, language := none, available_languages := []
            , success := false, error := some err2 }) ∧
      ((get_video_transcript (.tracks ts) language).success = false →
        ∃ e, get_video_transcript (.tracks ts) language =
          { transcript := none, language := none, available_languages := []
          , success := false, error := some e }) := by
  intro language err ts
  refine ⟨rfl, rfl, ?_, ?_⟩
  · intro t lang2 hsel err2 hf
    simp [get_video_transcript, hsel, hf]
  · intro hfail
    rcases gvt_success_or_failure (.tracks ts) language with hs | ⟨e, he⟩
    · rw [hs] at hfail; exact absurd hfail (by simp)
    · exact ⟨e, he⟩

/-- Witness for C2: a single track whose fetch raises yields the failure
result carrying the underlying error detail. -/
theorem get_video_transcript_failure_result_witness :
    get_video_transcript (.tracks [⟨"en", .error "no transcript"⟩]) "en" =
      { transcript := none, language := none, available_languages := []
      , success := false, error := some "no transcript" } :=
  (get_video_transcript_failure_result "en" "x" [⟨"en", .error "no transcript"⟩]).2.2.1
    ⟨"en", .error "no transcript"⟩ "en" (by decide) "no transcript" (by decide)

/-- Claim C3: with a non-empty provider enumeration, an exact language
match keeps the requested language as the effective language; otherwise
the first transcript of the enumeration is selected and its language code
reported, while `available_languages` is the enumeration in order
(duplicates preserved, being a plain map over the track list). -/
theorem transcript_language_fallback :
    ∀ (ts : List TranscriptTrack) (language : String), ts ≠ [] →
      (∀ t, find_transcript ts language = some t →
        select_transcript ts language = some (t, language)) ∧
      (find_transcript ts language = none →
        ∃ t tl, ts = t :: tl ∧ select_transcript ts language = some (t, t.language_code)) ∧
      (∀ t lang2 segs, select_transcript ts language = some (t, lang2) →
        t.fetchResult = .ok segs →
        (get_video_transcript (.tracks ts) language).language = some lang2 ∧
        (get_video_transcript (.tracks ts) language).available_languages =
          ts.map fun t => t.language_code) := by
  intro ts language hne
  refine ⟨?_, ?_, ?_⟩
  · intro t hf
    unfold select_transcript
    rw [hf]
  · intro hf
    cases ts with
    | nil => exact absurd rfl hne
    | cons t tl =>
      refine ⟨t, tl, rfl, ?_⟩
      unfold select_transcript
      rw [hf]
  · intro t lang2 segs hsel hfetch
    constructor <;> simp [get_video_transcript, hsel, hfetch]

/-- Witness for C3: tracks in languages `["es", "fr"]` with request `"en"`
give effective language `"es"` and `available_languages = ["es", "fr"]`. -/
theorem transcript_language_fallback_witness :
    (get_video_transcript
      (.tracks [⟨"es", .ok ["hola"]⟩, ⟨"fr", .ok ["salut"]⟩]) "en").language = some "es" ∧
    (get_video_transcript
      (.tracks [⟨"es", .ok ["hola"]⟩, ⟨"fr", .ok ["salut"]⟩]) "en").available_languages =
      ["es", "fr"] := by
  have h := (transcript_language_fallback
      [⟨"es", .ok ["hola"]⟩, ⟨"fr", .ok ["salut"]⟩] "en" (by decide)).2.2
    ⟨"es", .ok ["hola"]⟩ "es" ["hola"] (by decide) (by decide)
  exact ⟨h.1, h.2.trans (by decide)⟩

/-- Claim C4: validation fails exactly when the URL is empty, or its
network location (lower-cased) is not an accepted hostname, or no video
identifier can be extracted; a URL passing all three checks is accepted
unchanged. -/
theorem validate_youtube_url_iff :
    ∀ v : String,
      (validate_youtube_url v = .ok v ↔
        (v ≠ "" ∧ lower (netloc v) ∈ valid_domains ∧ extract_video_id v ≠ none)) ∧
      ((∃ e, validate_youtube_url v = .error e) ↔
        (v = "" ∨ lower (netloc v) ∉ valid_domains ∨ extract_video_id v = none)) := by
  intro v
  unfold validate_youtube_url
  by_cases h1 : v = ""
  · simp [h1]
  · by_cases h2 : lower (netloc v) ∈ valid_domains
    · cases he : extract_video_id v with
      | none => simp [h1, h2]
      | some vid => simp [h1, h2]
    · simp [h1, h2]

/-- Witness for C4: a standard watch URL satisfies the three checks and is
accepted unchanged. -/
theorem validate_youtube_url_iff_witness :
    validate_youtube_url "https://www.youtube.com/watch?v=dQw4w9WgXcQ" =
      .ok "https://www.youtube.com/watch?v=dQw4w9WgXcQ" :=
  ((validate_youtube_url_iff "https://www.youtube.com/watch?v=dQw4w9WgXcQ").1).mpr
    ⟨by decide, by decide, by decide⟩

/-- Counterexample for C5: the URL `https://youtube.com/v/xyoutu.be/z`
has the `/v/ID` shape with identifier part `xyoutu.be/z` (the maximal run
of characters outside the stopping class after `/v/`), yet the extractor
returns `"z"`, because the first pattern's alternative `youtu.be/` matches
inside the identifier before the second pattern is ever tried. -/
theorem extract_video_id_embedded_match_cex :
    captureFrom "xyoutu.be/z".data = "xyoutu.be/z".data ∧
    extract_video_id "https://youtube.com/v/xyoutu.be/z" = some "z" ∧
    some ("z" : String) ≠ some ("xyoutu.be/z" : String) := by decide

/-- Claim C5 (amended): for URLs of the shapes `watch?v=ID`, `youtu.be/ID`
and `embed/ID`, the extracted identifier equals `ID` exactly, stopping at
`&`, `?`, `#` or newline; for the `/v/ID` shape the same holds provided
neither `ID` nor the trailing part contains a `.` character (which rules
out an embedded occurrence of one of the first pattern's alternatives,
per the counterexample). -/
theorem extract_video_id_shapes (id rest : List Char)
    (h1 : id ≠ [])
    (h2 : ∀ c ∈ id, excludedChar c = false)
    (h3 : captureFrom rest = []) :
    extract_video_id ⟨"https://www.youtube.com/watch?v=".data ++ id ++ rest⟩ = some ⟨id⟩ ∧
    extract_video_id ⟨"https://youtu.be/".data ++ id ++ rest⟩ = some ⟨id⟩ ∧
    extract_video_id ⟨"https://www.youtube.com/embed/".data ++ id ++ rest⟩ = some ⟨id⟩ ∧
    ('.' ∉ id ∧ '.' ∉ rest →
      extract_video_id ⟨"https://www.youtube.com/v/".data ++ id ++ rest⟩ = some ⟨id⟩) := by
  have hcap : captureFrom (id ++ rest) = id := captureFrom_append h2 h3
  have hcapne : ¬ captureFrom (id ++ rest) = [] := by rw [hcap]; exact h1
  refine ⟨?_, ?_, ?_, ?_⟩
  · show extract_video_id ⟨"https://www.".data ++ (watchAlt ++ (id ++ rest))⟩ = some ⟨id⟩
    have e1 : reSearch pattern1Alts ("https://www.".data ++ (watchAlt ++ (id ++ rest))) = some id := by
      rw [reSearch_skips "https://www.".data _ (by decide)]
      have ht : tryAt (watchAlt :: [beAlt, embedAlt]) (watchAlt ++ (id ++ rest)) = some id := by
        rw [tryAt_cons_self _ _ hcapne, hcap]
      exact reSearch_eq_some (append_ne_nil_left _ (by decide)) ht
    simp only [extract_video_id, data_mk, e1]
  · show extract_video_id ⟨"https://".data ++ (beAlt ++ (id ++ rest))⟩ = some ⟨id⟩
    have e1 : reSearch pattern1Alts ("https://".data ++ (beAlt ++ (id ++ rest))) = some id := by
      rw [reSearch_skips "https://".data _ (by decide)]
      have hm : startsWithChars watchAlt (beAlt ++ (id ++ rest)) = false :=
        startsWithChars_append_eq_false _ (by decide)
      have ht : tryAt (watchAlt :: [beAlt, embedAlt]) (beAlt ++ (id ++ rest)) = some id := by
        rw [tryAt_cons_of_mismatch _ hm, tryAt_cons_self _ _ hcapne, hcap]
      exact reSearch_eq_some (append_ne_nil_left _ (by decide)) ht
    simp only [extract_video_id, data_mk, e1]
  · show extract_video_id ⟨"https://www.".data ++ (embedAlt ++ (id ++ rest))⟩ = some ⟨id⟩
    have e1 : reSearch pattern1Alts ("https://www.".data ++ (embedAlt ++ (id ++ rest))) = some id := by
      rw [reSearch_skips "https://www.".data _ (by decide)]
      have hm1 : startsWithChars watchAlt (embedAlt ++ (id ++ rest)) = false :=
        startsWithChars_append_eq_false _ (by decide)
      have hm2 : startsWithChars beAlt (embedAlt ++ (id ++ rest)) = false :=
        startsWithChars_append_eq_false _ (by decide)
      have ht : tryAt (watchAlt :: [beAlt, embedAlt]) (embedAlt ++ (id ++ rest)) = some id := by
        rw [tryAt_cons_of_mismatch _ hm1, tryAt_cons_of_mismatch _ hm2,
            tryAt_cons_self _ _ hcapne, hcap]
      exact reSearch_eq_some (append_ne_nil_left _ (by decide)) ht
    simp only [extract_video_id, data_mk, e1]
  · rintro ⟨hd1, hd2⟩
    have hnomem : ('.' : Char) ∉ id ++ rest := by
      intro hm
      rcases List.mem_append.mp hm with hm | hm
      · exact hd1 hm
      · exact hd2 hm
    show extract_video_id ⟨"https://www.".data ++ (vAlt ++ (id ++ rest))⟩ = some ⟨id⟩
    have e1 : reSearch pattern1Alts ("https://www.".data ++ (vAlt ++ (id ++ rest))) = none := by
      have hassoc : "https://www.".data ++ (vAlt ++ (id ++ rest)) =
          ("https://www.".data ++ vAlt) ++ (id ++ rest) := by
        rw [List.append_assoc]
      rw [hassoc, reSearch_skips ("https://www.".data ++ vAlt) _ (by decide)]
      exact reSearch_eq_none_of_not_mem '.' (by decide) hnomem
    have e2 : reSearch pattern2Alts ("https://www.".data ++ (vAlt ++ (id ++ rest))) = some id := by
      rw [reSearch_skips "https://www.".data _ (by decide)]
      have ht : tryAt (vAlt :: []) (vAlt ++ (id ++ rest)) = some id := by
        rw [tryAt_cons_self _ _ hcapne, hcap]
      exact reSearch_eq_some (append_ne_nil_left _ (by decide)) ht
    simp only [extract_video_id, data_mk, e1, e2, Option.map_some']

/-- Witness for C5 (amended): both round-trip example URLs yield the
identifier `abc123`. -/
theorem extract_video_id_shapes_witness :
    extract_video_id "https://www.youtube.com/watch?v=abc123&t=30" = some "abc123" ∧
    extract_video_id "https://youtu.be/abc123" = some "abc123" := by
  have h1 := (extract_video_id_shapes "abc123".data "&t=30".data
    (by decide) (by decide) (by decide)).1
  have h2 := (extract_video_id_shapes "abc123".data []
    (by decide) (by decide) (by decide)).2.1
  constructor
  · have e1 : (⟨"https://www.youtube.com/watch?v=".data ++ "abc123".data ++ "&t=30".data⟩ : String) =
        "https://www.youtube.com/watch?v=abc123&t=30" := by decide
    have e2 : (⟨"abc123".data⟩ : String) = "abc123" := by decide
    rw [e1, e2] at h1
    exact h1
  · have e1 : (⟨"https://youtu.be/".data ++ "abc123".data ++ ([] : List Char)⟩ : String) =
        "https://youtu.be/abc123" := by decide
    have e2 : (⟨"abc123".data⟩ : String) = "abc123" := by decide
    rw [e1, e2] at h2
    exact h2

/-- Counterexample for C6: the `domains` list returned by
`/supported-formats` is not the accepted-hostname list of the validator —
it omits `www.youtu.be`. -/
theorem supported_formats_domains_ne_valid_domains :
    get_supported_youtube_formats.domains ≠ valid_domains := by decide

/-- Claim C6 (amended): `/supported-formats` is a constant (its embedding
takes no input and reads no state, so repeated calls return the identical
fixed payload); its `domains` list is the fixed four-element list below, a
strict subset of the validator's accepted hostnames: every listed domain
is accepted, but the accepted hostname `www.youtu.be` is missing from the
payload. -/
theorem supported_formats_payload :
    get_supported_youtube_formats.domains =
      ["youtube.com", "www.youtube.com", "youtu.be", "m.youtube.com"] ∧
    get_supported_youtube_formats.domains.all (fun d => valid_domains.contains d) = true ∧
    valid_domains.contains "www.youtu.be" = true ∧
    get_supported_youtube_formats.domains.contains "www.youtu.be" = false := by decide

/-- Claim C7: every `/convert` request that fails URL validation gets an
HTTP 400 response carrying the specific validation error detail (and no
provider call is recorded). -/
theorem convert_validation_error_gives_400 :
    ∀ (url language : String) (provider : String → ListTranscriptsOutcome)
      (now : Nat) (e : String),
      validate_youtube_url url = .error e →
      convert_youtube_to_text url language provider now = (.httpError 400 e, []) := by
  intro url language provider now e hv
  exact convert_validate_error url language provider now e hv

/-- Witness for C7: the empty URL yields a 400 with the empty-URL
detail. -/
theorem convert_validation_error_gives_400_witness :
    convert_youtube_to_text "" "en" (fun _ => .failure "x") 0 =
      (.httpError 400 "URL cannot be empty", []) :=
  convert_validation_error_gives_400 "" "en" (fun _ => .failure "x") 0
    "URL cannot be empty" (by decide)

/-- Claim C8: when validation fails, no call to the external transcript
provider is made — the recorded provider-call list is empty and the whole
outcome is independent of the provider. -/
theorem convert_fail_fast_no_provider_call :
    ∀ (url language : String) (provider : String → ListTranscriptsOutcome) (now : Nat),
      (∃ e, validate_youtube_url url = .error e) →
      (convert_youtube_to_text url language provider now).2 = [] ∧
      ∀ provider2, convert_youtube_to_text url language provider now =
        convert_youtube_to_text url language provider2 now := by
  rintro url language provider now ⟨e, hv⟩
  constructor
  · rw [convert_validate_error url language provider now e hv]
  · intro provider2
    rw [convert_validate_error url language provider now e hv,
        convert_validate_error url language provider2 now e hv]

/-- Witness for C8: a wrong-host URL is rejected without consulting the
provider. -/
theorem convert_fail_fast_no_provider_call_witness :
    (convert_youtube_to_text "https://vimeo.com/abc123" "en"
      (fun _ => .tracks [⟨"en", .ok ["hi"]⟩]) 0).2 = [] :=
  (convert_fail_fast_no_provider_call "https://vimeo.com/abc123" "en"
    (fun _ => .tracks [⟨"en", .ok ["hi"]⟩]) 0
    ⟨"URL must be from YouTube domain (youtube.com or youtu.be)", by decide⟩).1

/-- Claim C9: for every request that passed validation the handler's
repeated `extract_video_id` call returns a non-absent identifier, so the
400 branch with detail `Could not extract video ID from URL` is
unreachable (stated for all requests: no outcome ever carries that
detail). -/
theorem convert_extract_video_id_branch_unreachable :
    ∀ (url language : String) (provider : String → ListTranscriptsOutcome) (now : Nat),
      (∀ u, validate_youtube_url url = .ok u → u = url ∧ extract_video_id url ≠ none) ∧
      (convert_youtube_to_text url language provider now).1 ≠
        .httpError 400 "Could not extract video ID from URL" := by
  intro url language provider now
  rcases validate_cases url with herr | ⟨hok, hex⟩
  · have hv : ∃ m, validate_youtube_url url = .error m ∧
        m ≠ "Could not extract video ID from URL" := by
      rcases herr with h | h | ⟨h, _⟩
      · exact ⟨_, h, by decide⟩
      · exact ⟨_, h, by decide⟩
      · exact ⟨_, h, by decide⟩
    obtain ⟨m, hm, hne⟩ := hv
    constructor
    · intro u hu
      rw [hm] at hu
      exact absurd hu (by simp)
    · rw [convert_validate_error url language provider now m hm]
      simp [hne]
  · constructor
    · intro u hu
      rw [hok] at hu
      exact ⟨(Except.ok.inj hu).symm, hex⟩
    · cases he2 : extract_video_id url with
      | none => exact absurd he2 hex
      | some vid => simp [convert_youtube_to_text, hok, he2]

/-- Witness for C9: a validated URL extracts an identifier and its
`/convert` outcome is not the could-not-extract 400. -/
theorem convert_extract_video_id_branch_unreachable_witness :
    extract_video_id "https://youtu.be/abc123" ≠ none ∧
    (convert_youtube_to_text "https://youtu.be/abc123" "en"
      (fun _ => .failure "x") 0).1 ≠
      .httpError 400 "Could not extract video ID from URL" := by
  have h := convert_extract_video_id_branch_unreachable
    "https://youtu.be/abc123" "en" (fun _ => .failure "x") 0
  exact ⟨(h.1 "https://youtu.be/abc123" (by decide)).2, h.2⟩

/-- Claim C10: the host check compares the entire network location, so a
URL whose hostname alone is accepted but which carries an explicit port —
`https://youtube.com:443/watch?v=abc` — fails validation with the
wrong-domain error. -/
theorem validate_netloc_includes_port :
    netloc "https://youtube.com:443/watch?v=abc" = "youtube.com:443" ∧
    lower (netloc "https://youtube.com:443/watch?v=abc") ∉ valid_domains ∧
    validate_youtube_url "https://youtube.com:443/watch?v=abc" =
      .error "URL must be from YouTube domain (youtube.com or youtu.be)" := by
  refine ⟨by decide, by decide, by decide⟩

end TubeToText
